import Mathlib

/-!
Shallow embedding of the image-to-svg batch conversion core:
the task/batch data model (src/lib/types.ts), the batch orchestrator
(src/lib/conversion.ts), the IndexedDB-backed history store and the
download service (src/lib/storage.ts), and the validation helpers
(src/lib/svg-template.ts and the FileUpload component), together with
theorems settling the specification's claims about them.

Modelling conventions:
* `Date` values are `Nat` parameters (`now`); the code's `new Date()` /
  `Date.now()` calls become explicit clock arguments.
* The external encoder (`svgTemplateService.convertFileToSvg`) is an
  oracle `encode : JsFile → Except String String` giving either the SVG
  text or the thrown error's message.
* The async orchestration is linearised: within `convertBatchTask` the
  per-task callback sequence of `convertSingleTask` is replayed task by
  task in submission order, and after every task state change the
  `updateBatchProgress` closure recomputes the aggregate, exactly as the
  single-threaded JS event loop interleaves them (the only await point is
  the encoder call).
* JS `number` results of the progress formula are modelled by `JsNum`,
  which distinguishes `NaN` (division by a zero task count) from natural
  values; `Math.round(x)` for nonnegative rational `x` is floor(x + 1/2).
-/

namespace ImageToSvg

/-- Status enum `ConversionStatus` from types.ts. -/
inductive ConversionStatus where
  | pending
  | processing
  | completed
  | failed
deriving Repr, DecidableEq

/-- The test `status === COMPLETED || status === FAILED` used by
`updateBatchProgress` in conversion.ts. -/
def ConversionStatus.isTerminal : ConversionStatus → Bool
  | .completed => true
  | .failed => true
  | _ => false

/-- The test `status === FAILED` used for `hasFailedTasks`. -/
def ConversionStatus.isFailed : ConversionStatus → Bool
  | .failed => true
  | _ => false

/-- The fields of a browser `File` object that the code reads. -/
structure JsFile where
  name : String
  type : String
  size : Nat
deriving Repr, DecidableEq

/-- `ErrorType` enum from types.ts. -/
inductive ErrorType where
  | fileReadError
  | imageLoadError
  | conversionError
  | storageError
  | downloadError
deriving Repr, DecidableEq

/-- `ConversionError` from types.ts (the `details` field is dropped:
the code only ever forwards it). -/
structure ConversionError where
  type : ErrorType
  message : String
deriving Repr, DecidableEq

/-- JS number as produced by the aggregate-progress computation:
either NaN (from a division by zero) or a natural number. -/
inductive JsNum where
  | nan
  | num (n : Nat)
deriving Repr, DecidableEq

/-- `ConversionTask` from types.ts. -/
structure ConversionTask where
  id : String
  file : JsFile
  fileName : String
  fileSize : Nat
  status : ConversionStatus
  progress : Nat
  svgContent : Option String
  error : Option String
  createdAt : Nat
  completedAt : Option Nat
deriving Repr, DecidableEq

/-- `BatchConversionTask` from types.ts. -/
structure BatchConversionTask where
  batchId : String
  tasks : List ConversionTask
  totalProgress : JsNum
  status : ConversionStatus
  createdAt : Nat
  completedAt : Option Nat
deriving Repr, DecidableEq

/-- `ConversionHistory` from types.ts (`savedAt : Date` as `Nat`). -/
structure ConversionHistory where
  id : String
  batch : BatchConversionTask
  savedAt : Nat
deriving Repr, DecidableEq

/-- `StorageItem` from types.ts: the value put into the IndexedDB object
store, keyed by `id` and indexed by `timestamp`. -/
structure StorageItem where
  id : String
  data : ConversionHistory
  timestamp : Nat
deriving Repr, DecidableEq

/-! ### svg-template.ts helpers -/

/-- `supportedTypes` list in `SvgTemplateService.validateImageFile`. -/
def supportedTypes : List String :=
  ["image/jpeg", "image/jpg", "image/png", "image/gif", "image/webp",
   "image/bmp", "image/svg+xml"]

/-- `SvgTemplateService.validateImageFile`: MIME type is in the list. -/
def validateImageFile (fileType : String) : Bool :=
  supportedTypes.contains fileType

/-- `SvgTemplateService.getFileNameWithoutExtension`: strip from the last
dot on (`lastIndexOf('.')`; the whole name when there is no dot). -/
def getFileNameWithoutExtension (fileName : String) : String :=
  match fileName.toList.reverse.dropWhile (fun c => c ≠ '.') with
  | [] => fileName
  | _ :: rest => String.mk rest.reverse

/-- `SvgTemplateService.generateSvgFileName`. -/
def generateSvgFileName (originalFileName : String) : String :=
  getFileNameWithoutExtension originalFileName ++ ".svg"

/-! ### FileUpload.validateFiles (upload component) -/

/-- `maxSize` in FileUpload.validateFiles: 10 MiB. -/
def maxUploadSize : Nat := 10 * 1024 * 1024

/-- Body of the `files.forEach` loop in `FileUpload.validateFiles`:
reject an unsupported type, then reject a file above 10 MiB, else keep
the file. -/
def validateFilesStep (acc : List JsFile × List String) (file : JsFile) :
    List JsFile × List String :=
  if !validateImageFile file.type then
    (acc.1, acc.2 ++ [file.name ++ " 不是支持的图片格式"])
  else if file.size > maxUploadSize then
    (acc.1, acc.2 ++ [file.name ++ " 文件过大"])
  else
    (acc.1 ++ [file], acc.2)

/-- `FileUpload.validateFiles`: partitions files into the valid ones
(supported type and size ≤ 10 MiB, order preserved) and error messages
for the rejected ones. -/
def validateFiles (files : List JsFile) : List JsFile × List String :=
  files.foldl validateFilesStep ([], [])

/-! ### ConversionService (conversion.ts) -/

/-- `ConversionService.createTask`: throws a `ConversionError` of type
FILE_READ_ERROR when `validateImageFile` rejects the MIME type, else
builds a fresh pending task. The generated id and the creation time are
parameters (`generateId()` / `new Date()`). Note the code performs no
size check here. -/
def createTask (newId : String) (now : Nat) (file : JsFile) :
    Except ConversionError ConversionTask :=
  if validateImageFile file.type then
    .ok { id := newId
          file := file
          fileName := getFileNameWithoutExtension file.name
          fileSize := file.size
          status := .pending
          progress := 0
          svgContent := none
          error := none
          createdAt := now
          completedAt := none }
  else
    .error { type := .fileReadError
             message := "不支持的文件格式: " ++ file.type }

/-- `ConversionService.createBatchTask` applied to already-created tasks. -/
def createBatchTask (newId : String) (now : Nat)
    (tasks : List ConversionTask) : BatchConversionTask :=
  { batchId := newId
    tasks := tasks
    totalProgress := .num 0
    status := .pending
    createdAt := now
    completedAt := none }

/-- Final task state produced by `ConversionService.convertSingleTask`:
on encoder success the task gets the SVG, status COMPLETED, progress 100
and a completion timestamp; on encoder failure the catch block records
status FAILED and the error message, leaving progress at the value 20 it
had at the await point and leaving `completedAt` untouched. -/
def convertSingleTask (encode : JsFile → Except String String) (now : Nat)
    (task : ConversionTask) : ConversionTask :=
  match encode task.file with
  | .ok svg =>
      { task with
        status := .completed
        progress := 100
        svgContent := some svg
        completedAt := some now }
  | .error msg =>
      { task with
        status := .failed
        progress := 20
        error := some msg }

/-- The sequence of task states at which `convertSingleTask` fires its
`onProgress` callback: PROCESSING at progress 0, then 20; on success
progress 80, then the completed state twice (once from
`updateProgress(100)`, once from the trailing `onProgress` call); on
failure the FAILED state recorded by the catch block. -/
def taskSnapshots (encode : JsFile → Except String String) (now : Nat)
    (task : ConversionTask) : List ConversionTask :=
  let t1 := { task with status := ConversionStatus.processing, progress := 0 }
  let t2 := { t1 with progress := min 20 100 }
  match encode task.file with
  | .ok svg =>
      let t3 := { t2 with progress := min 80 100 }
      let t4 := { t3 with
                  svgContent := some svg
                  status := ConversionStatus.completed
                  progress := 100
                  completedAt := some now }
      let t5 := { t4 with progress := min 100 100 }
      [t1, t2, t3, t5, t5]
  | .error msg =>
      let tE := { t2 with status := ConversionStatus.failed, error := some msg }
      [t1, t2, tE]

/-- `Math.round((completedTasks / tasks.length) * 100)` in JS: NaN when
the task list is empty (0 / 0), otherwise round-half-up of the rational
`100 * c / t`, i.e. `⌊(200 c + t) / (2 t)⌋`. -/
def batchProgressValue (c t : Nat) : JsNum :=
  if t = 0 then .nan else .num ((200 * c + t) / (2 * t))

/-- `completedTasks` count in `updateBatchProgress`. -/
def terminalCount (tasks : List ConversionTask) : Nat :=
  (tasks.filter (fun t => t.status.isTerminal)).length

/-- The `updateBatchProgress` closure inside `convertBatchTask`:
recompute the aggregate progress; when every task is terminal, set the
batch status from `hasFailedTasks` and stamp `completedAt`. -/
def updateBatchProgress (now : Nat) (b : BatchConversionTask) :
    BatchConversionTask :=
  let c := terminalCount b.tasks
  let b1 := { b with totalProgress := batchProgressValue c b.tasks.length }
  if c = b.tasks.length then
    { b1 with
      status := if b.tasks.any (fun t => t.status.isFailed) then
                  ConversionStatus.failed
                else ConversionStatus.completed
      completedAt := some now }
  else
    b1

/-- Replay one task's callback snapshots against the batch: after each
snapshot the shared `tasks` array holds `pre ++ snapshot :: post` and
`updateBatchProgress` runs. Returns the final batch state and the list
of batch states observed by `onBatchProgress`. -/
def snapFold (now : Nat) (pre post : List ConversionTask)
    (b : BatchConversionTask) (snaps : List ConversionTask) :
    BatchConversionTask × List BatchConversionTask :=
  snaps.foldl
    (fun acc s =>
      let b1 := updateBatchProgress now { acc.1 with tasks := pre ++ s :: post }
      (b1, acc.2 ++ [b1]))
    (b, [])

/-- Sequential replay of `convertBatchTask`'s task loop: `pre` holds the
final states of already-processed tasks, the second list the tasks still
to process. An encoder failure ends that task's snapshot sequence in the
FAILED state and processing continues with the next task (the
`processTask` catch block swallows the rethrown error). -/
def runTasks (encode : JsFile → Except String String) (now : Nat) :
    List ConversionTask → List ConversionTask → BatchConversionTask →
      BatchConversionTask × List BatchConversionTask
  | _, [], b => (b, [])
  | pre, t :: rest, b =>
      let step := snapFold now pre rest b (taskSnapshots encode now t)
      let tail := runTasks encode now (pre ++ [convertSingleTask encode now t])
        rest step.1
      (tail.1, step.2 ++ tail.2)

/-- `ConversionService.convertBatchTask`: set the batch PROCESSING,
process every task, then run the final `updateBatchProgress`. Returns the
final batch and the trace of batch states seen by `onBatchProgress`. -/
def convertBatchTask (encode : JsFile → Except String String) (now : Nat)
    (b : BatchConversionTask) :
    BatchConversionTask × List BatchConversionTask :=
  let b0 := { b with status := ConversionStatus.processing }
  let r := runTasks encode now [] b.tasks b0
  let bF := updateBatchProgress now r.1
  (bF, r.2 ++ [bF])

/-- Per-task branch of `ConversionService.cancelBatchTask`: PENDING and
PROCESSING tasks become FAILED with the cancellation message; terminal
tasks are untouched. Neither progress nor `completedAt` is written. -/
def cancelTask (t : ConversionTask) : ConversionTask :=
  if t.status = ConversionStatus.pending ∨ t.status = ConversionStatus.processing then
    { t with status := ConversionStatus.failed, error := some "任务已取消" }
  else
    t

/-- `ConversionService.cancelBatchTask`: cancel every non-terminal task
and set the batch status to FAILED unconditionally (`totalProgress` and
`completedAt` are not written). -/
def cancelBatchTask (b : BatchConversionTask) : BatchConversionTask :=
  { b with tasks := b.tasks.map cancelTask, status := ConversionStatus.failed }

/-- `ConversionService.getBatchStatistics`. -/
def getBatchStatistics (b : BatchConversionTask) :
    Nat × Nat × Nat × Nat × Nat × Nat :=
  let total := b.tasks.length
  let completed := (b.tasks.filter (fun t => t.status = ConversionStatus.completed)).length
  let failed := (b.tasks.filter (fun t => t.status = ConversionStatus.failed)).length
  let processing := (b.tasks.filter (fun t => t.status = ConversionStatus.processing)).length
  let pending := (b.tasks.filter (fun t => t.status = ConversionStatus.pending)).length
  let successRate := if total > 0 then (200 * completed + total) / (2 * total) else 0
  (total, completed, failed, processing, pending, successRate)

/-! ### StorageService (storage.ts) on an IndexedDB model

The object store is keyed by `id` with a non-unique index on
`timestamp`. `objectStore.put` structured-clones the value and replaces
any record with the same key, so the store is modelled as a list of
`StorageItem` values with at most one entry per id; a record, once put,
is an immutable deep copy. Per the IndexedDB specification, entries of
the `timestamp` index are ordered by index key then by primary key
(ascending), and `openCursor(null, 'prev')` walks that order backwards:
descending timestamp, ties in descending id order. -/

/-- `objectStore.put`: replace the record with the same id, i.e. drop
any same-id entry and add the structured-cloned item. -/
def putItem (store : List StorageItem) (item : StorageItem) :
    List StorageItem :=
  store.filter (fun s => !(s.id == item.id)) ++ [item]

/-- `StorageService.saveHistory`: put `\x7b id, data: history,
timestamp: Date.now() \x7d` (the clock is a parameter). -/
def saveHistory (store : List StorageItem) (history : ConversionHistory)
    (now : Nat) : List StorageItem :=
  putItem store { id := history.id, data := history, timestamp := now }

/-- Lexicographic comparison of strings as lists of code points: the
key comparison IndexedDB applies to string primary keys. -/
def charListLe : List Char → List Char → Bool
  | [], _ => true
  | _ :: _, [] => false
  | a :: as, b :: bs =>
    if a.toNat < b.toNat then true
    else if b.toNat < a.toNat then false
    else charListLe as bs

/-- IndexedDB string-key order on record ids. -/
def idLe (a b : String) : Bool := charListLe a.toList b.toList

theorem charListLe_total :
    ∀ x y, charListLe x y = true ∨ charListLe y x = true := by
  intro x
  induction x with
  | nil => intro y; left; rfl
  | cons a as ih =>
    intro y
    cases y with
    | nil => right; rfl
    | cons b bs =>
      rcases Nat.lt_trichotomy a.toNat b.toNat with h | h | h
      · left; simp [charListLe, h]
      · rcases ih bs with h2 | h2
        · left; simp [charListLe, h, h2]
        · right; simp [charListLe, h, h2]
      · right; simp [charListLe, h]

theorem charListLe_trans :
    ∀ x y z, charListLe x y = true → charListLe y z = true →
      charListLe x z = true := by
  intro x
  induction x with
  | nil => intro y z _ _; rfl
  | cons a as ih =>
    intro y z hxy hyz
    cases y with
    | nil => simp [charListLe] at hxy
    | cons b bs =>
      cases z with
      | nil => simp [charListLe] at hyz
      | cons c cs =>
        simp only [charListLe] at hxy hyz ⊢
        split_ifs at hxy hyz ⊢ with h1 h2 h3 h4 h5 h6
        all_goals first
          | rfl
          | exact hxy
          | exact hyz
          | exact ih bs cs hxy hyz
          | omega

/-- The order in which `openCursor(null, 'prev')` on the `timestamp`
index yields records: `a` comes no later than `b` when `b` has a smaller
timestamp, or an equal timestamp and a no-larger id (IndexedDB index
entries of equal key are ordered by primary key ascending, reversed by
the `prev` cursor). -/
def itemRel (a b : StorageItem) : Prop :=
  b.timestamp < a.timestamp ∨
    (b.timestamp = a.timestamp ∧ idLe b.id a.id = true)

instance : DecidableRel itemRel := fun a b =>
  inferInstanceAs
    (Decidable (b.timestamp < a.timestamp ∨
      (b.timestamp = a.timestamp ∧ idLe b.id a.id = true)))

instance itemRel_total : IsTotal StorageItem itemRel where
  total a b := by
    unfold itemRel
    rcases Nat.lt_trichotomy a.timestamp b.timestamp with h | h | h
    · exact Or.inr (Or.inl h)
    · rcases charListLe_total a.id.toList b.id.toList with hid | hid
      · exact Or.inr (Or.inr ⟨h, hid⟩)
      · exact Or.inl (Or.inr ⟨h.symm, hid⟩)
    · exact Or.inl (Or.inl h)

instance itemRel_trans : IsTrans StorageItem itemRel where
  trans a b c hab hbc := by
    unfold itemRel at *
    rcases hab with h1 | ⟨h1, h1'⟩ <;> rcases hbc with h2 | ⟨h2, h2'⟩
    · exact Or.inl (h2.trans h1)
    · exact Or.inl (h2 ▸ h1)
    · exact Or.inl (h1 ▸ h2)
    · exact Or.inr ⟨h2.trans h1, charListLe_trans _ _ _ h2' h1'⟩

/-- `StorageService.getAllHistory`: walk the `timestamp` index with a
`prev` cursor and collect each record's `data`. -/
def getAllHistory (store : List StorageItem) : List ConversionHistory :=
  (store.insertionSort itemRel).map (fun s => s.data)

/-- `StorageService.getHistoryById`: `objectStore.get(id)`, null when
absent. -/
def getHistoryById (store : List StorageItem) (recordId : String) :
    Option ConversionHistory :=
  (store.find? (fun s => s.id == recordId)).map (fun s => s.data)

/-- `StorageService.deleteHistory`: `objectStore.delete(id)`. -/
def deleteHistory (store : List StorageItem) (recordId : String) :
    List StorageItem :=
  store.filter (fun s => !(s.id == recordId))

/-- `ConversionService.saveBatchToHistory`: wrap the batch in a
`ConversionHistory` with a fresh id and the current time, store it via
`saveHistory`, and return the record id. The IndexedDB put takes a
structured clone, so the stored snapshot is the batch value at this
moment. -/
def saveBatchToHistory (store : List StorageItem) (newId : String)
    (now : Nat) (batch : BatchConversionTask) :
    List StorageItem × String :=
  (saveHistory store { id := newId, batch := batch, savedAt := now } now, newId)

/-- The caller-side world for the copy-on-save claim: the live in-memory
batch object next to the persisted store. -/
structure AppState where
  live : BatchConversionTask
  store : List StorageItem
deriving Repr, DecidableEq

/-- Persist the live batch (`saveBatchToHistory` on the current live
value). -/
def saveLiveBatch (s : AppState) (newId : String) (now : Nat) :
    AppState × String :=
  ({ s with store := (saveBatchToHistory s.store newId now s.live).1 }, newId)

/-- Mutate the live batch object; the store is untouched (the stored
record is a structured clone, not an alias). -/
def mutateLive (f : BatchConversionTask → BatchConversionTask)
    (s : AppState) : AppState :=
  { s with live := f s.live }

/-! ### DownloadService (storage.ts, download part) -/

/-- `DownloadOptions` from types.ts. -/
structure DownloadOptions where
  fileName : String
  content : String
  mimeType : String
deriving Repr, DecidableEq

/-- JS falsiness of the optional `svgContent` string: `!task.svgContent`
is true when the field is undefined and also when it is the empty
string. -/
def svgContentFalsy (svgContent : Option String) : Bool :=
  match svgContent with
  | none => true
  | some c => c == ""

/-- `DownloadService.downloadTaskSvg`: throw a DOWNLOAD_ERROR unless the
task is COMPLETED with truthy SVG content (`!task.svgContent` rejects
both a missing and an empty string), else hand the SVG to
`downloadFile` (the browser delivery, modelled as returning its
options). -/
def downloadTaskSvg (task : ConversionTask) :
    Except ConversionError DownloadOptions :=
  if task.status ≠ ConversionStatus.completed ∨
      svgContentFalsy task.svgContent then
    .error { type := .downloadError, message := "任务未完成或SVG内容不存在" }
  else
    .ok { fileName := generateSvgFileName task.file.name
          content := task.svgContent.getD ""
          mimeType := "image/svg+xml" }

/-! ### Helper lemmas -/

theorem updateBatchProgress_tasks (now : Nat) (b : BatchConversionTask) :
    (updateBatchProgress now b).tasks = b.tasks := by
  unfold updateBatchProgress
  by_cases h : terminalCount b.tasks = b.tasks.length <;> simp [h]

theorem updateBatchProgress_totalProgress (now : Nat)
    (b : BatchConversionTask) :
    (updateBatchProgress now b).totalProgress =
      batchProgressValue (terminalCount b.tasks) b.tasks.length := by
  unfold updateBatchProgress
  by_cases h : terminalCount b.tasks = b.tasks.length <;> simp [h]

/-- Every snapshot sequence ends in the task's final state. -/
theorem taskSnapshots_decomp (e : JsFile → Except String String) (now : Nat)
    (t : ConversionTask) :
    taskSnapshots e now t =
      (taskSnapshots e now t).dropLast ++ [convertSingleTask e now t] := by
  cases h : e t.file <;>
    simp [taskSnapshots, convertSingleTask, h, List.dropLast]

theorem convertSingleTask_terminal (e : JsFile → Except String String)
    (now : Nat) (t : ConversionTask) :
    (convertSingleTask e now t).status.isTerminal = true := by
  unfold convertSingleTask
  cases e t.file <;> rfl

/-- First component of the snapshot fold is a plain fold of batch
updates. -/
theorem snapFold_fst (now : Nat) (pre post : List ConversionTask) :
    ∀ (snaps : List ConversionTask) (b : BatchConversionTask)
      (tr : List BatchConversionTask),
      (snaps.foldl
        (fun acc s =>
          let b1 := updateBatchProgress now { acc.1 with tasks := pre ++ s :: post }
          (b1, acc.2 ++ [b1])) (b, tr)).1 =
      snaps.foldl
        (fun bb s => updateBatchProgress now { bb with tasks := pre ++ s :: post })
        b := by
  intro snaps
  induction snaps with
  | nil => intro b tr; rfl
  | cons s rest ih => intro b tr; exact ih _ _

theorem snapFold_tasks (now : Nat) (pre post : List ConversionTask)
    (l : List ConversionTask) (s : ConversionTask)
    (b : BatchConversionTask) :
    (snapFold now pre post b (l ++ [s])).1.tasks = pre ++ s :: post := by
  unfold snapFold
  rw [snapFold_fst, List.foldl_append]
  simp [updateBatchProgress_tasks]

/-- Every batch state the snapshot fold emits is an
`updateBatchProgress` output. -/
theorem snapFold_trace_mem (now : Nat) (pre post : List ConversionTask) :
    ∀ (snaps : List ConversionTask) (b : BatchConversionTask)
      (tr : List BatchConversionTask) (x : BatchConversionTask),
      x ∈ (snaps.foldl
        (fun acc s =>
          let b1 := updateBatchProgress now { acc.1 with tasks := pre ++ s :: post }
          (b1, acc.2 ++ [b1])) (b, tr)).2 →
      x ∈ tr ∨ ∃ bb, x = updateBatchProgress now bb := by
  intro snaps
  induction snaps with
  | nil => intro b tr x hx; exact Or.inl hx
  | cons s rest ih =>
    intro b tr x hx
    rcases ih _ _ _ hx with h | h
    · rcases List.mem_append.mp h with h2 | h2
      · exact Or.inl h2
      · exact Or.inr ⟨_, (List.mem_singleton.mp h2)⟩
    · exact Or.inr h

theorem runTasks_tasks (e : JsFile → Except String String) (now : Nat) :
    ∀ (todo pre : List ConversionTask) (b : BatchConversionTask),
      b.tasks = pre ++ todo →
      (runTasks e now pre todo b).1.tasks =
        pre ++ todo.map (convertSingleTask e now) := by
  intro todo
  induction todo with
  | nil =>
    intro pre b hb
    simpa [runTasks] using hb
  | cons t rest ih =>
    intro pre b hb
    have hstep : (snapFold now pre rest b (taskSnapshots e now t)).1.tasks =
        pre ++ convertSingleTask e now t :: rest := by
      rw [taskSnapshots_decomp e now t]
      exact snapFold_tasks now pre rest _ _ b
    have := ih (pre ++ [convertSingleTask e now t])
      (snapFold now pre rest b (taskSnapshots e now t)).1
      (by simpa using hstep)
    simpa [runTasks] using this

theorem runTasks_trace_mem (e : JsFile → Except String String) (now : Nat) :
    ∀ (todo pre : List ConversionTask) (b : BatchConversionTask)
      (x : BatchConversionTask),
      x ∈ (runTasks e now pre todo b).2 →
      ∃ bb, x = updateBatchProgress now bb := by
  intro todo
  induction todo with
  | nil => intro pre b x hx; simp [runTasks] at hx
  | cons t rest ih =>
    intro pre b x hx
    simp only [runTasks, List.mem_append] at hx
    rcases hx with hx | hx
    · have := snapFold_trace_mem now pre rest (taskSnapshots e now t) b [] x hx
      rcases this with h | h
      · simp at h
      · exact h
    · exact ih _ _ x hx

theorem convertBatchTask_tasks (e : JsFile → Except String String)
    (now : Nat) (b : BatchConversionTask) :
    (convertBatchTask e now b).1.tasks =
      b.tasks.map (convertSingleTask e now) := by
  unfold convertBatchTask
  rw [updateBatchProgress_tasks]
  exact runTasks_tasks e now b.tasks [] _ rfl

theorem convertBatchTask_trace_mem (e : JsFile → Except String String)
    (now : Nat) (b : BatchConversionTask) (x : BatchConversionTask)
    (hx : x ∈ (convertBatchTask e now b).2) :
    ∃ bb, x = updateBatchProgress now bb := by
  simp only [convertBatchTask, List.mem_append, List.mem_singleton] at hx
  rcases hx with hx | hx
  · exact runTasks_trace_mem e now b.tasks [] _ x hx
  · exact ⟨_, hx⟩

theorem terminalCount_all (tasks : List ConversionTask)
    (h : ∀ t ∈ tasks, t.status.isTerminal = true) :
    terminalCount tasks = tasks.length := by
  unfold terminalCount
  rw [List.filter_eq_self.mpr h]

theorem batchProgressValue_all (n : Nat) (h : 0 < n) :
    batchProgressValue n n = .num 100 := by
  unfold batchProgressValue
  rw [if_neg (Nat.pos_iff_ne_zero.mp h)]
  congr 1
  have h2 : 0 < 2 * n := by omega
  have h3 : 200 * n + n = n + 2 * n * 100 := by ring
  rw [h3, Nat.add_mul_div_left _ _ h2, Nat.div_eq_of_lt (by omega)]

/-! ### Concrete fixtures used by witnesses and counterexamples -/

/-- A small supported image file. -/
def exFile : JsFile := { name := "a.png", type := "image/png", size := 3 }

/-- A freshly created pending task for `exFile`. -/
def exTask : ConversionTask :=
  { id := "t1", file := exFile, fileName := "a", fileSize := 3,
    status := .pending, progress := 0, svgContent := none,
    error := none, createdAt := 0, completedAt := none }

/-- Encoder oracle that always succeeds. -/
def encodeOk : JsFile → Except String String := fun _ => .ok "<svg/>"

/-- Encoder oracle that always fails. -/
def encodeFail : JsFile → Except String String := fun _ => .error "boom"

/-- A one-task batch around `exTask`. -/
def exBatch : BatchConversionTask := createBatchTask "b1" 0 [exTask]

/-! ### Claim C3 -/

/-- Claim C3: for every non-empty batch whose encoder calls each either
succeed or fail (the oracle is total), `convertBatchTask` resolves with
each task replaced by its `convertSingleTask` outcome (per-task encoder
failures are recorded on the task by the `processTask` catch, never
propagated), every task terminal, and `totalProgress = 100`. -/
theorem convertBatchTask_resolves (e : JsFile → Except String String)
    (now : Nat) (b : BatchConversionTask) (h : b.tasks ≠ []) :
    (convertBatchTask e now b).1.tasks =
      b.tasks.map (convertSingleTask e now) ∧
    (∀ t ∈ (convertBatchTask e now b).1.tasks, t.status.isTerminal = true) ∧
    (convertBatchTask e now b).1.totalProgress = JsNum.num 100 := by
  have htasks := convertBatchTask_tasks e now b
  have hterm : ∀ t ∈ (convertBatchTask e now b).1.tasks,
      t.status.isTerminal = true := by
    intro t ht
    rw [htasks] at ht
    obtain ⟨t0, _, rfl⟩ := List.mem_map.mp ht
    exact convertSingleTask_terminal e now t0
  refine ⟨htasks, hterm, ?_⟩
  have hfin : (convertBatchTask e now b).1 =
      updateBatchProgress now
        (runTasks e now [] b.tasks
          { b with status := ConversionStatus.processing }).1 := rfl
  have hrt : (runTasks e now [] b.tasks
      { b with status := ConversionStatus.processing }).1.tasks =
      b.tasks.map (convertSingleTask e now) := by
    simpa using runTasks_tasks e now b.tasks []
      { b with status := ConversionStatus.processing } rfl
  rw [hfin, updateBatchProgress_totalProgress, hrt]
  rw [terminalCount_all _ (by
    intro t ht
    obtain ⟨t0, _, rfl⟩ := List.mem_map.mp ht
    exact convertSingleTask_terminal e now t0)]
  rw [List.length_map]
  exact batchProgressValue_all _ (List.length_pos.mpr h)

/-- Witness for C3 at a concrete one-task batch with a failing encoder. -/
theorem convertBatchTask_resolves_witness :
    (convertBatchTask encodeFail 7 exBatch).1.totalProgress =
      JsNum.num 100 :=
  (convertBatchTask_resolves encodeFail 7 exBatch (by decide)).2.2

/-! ### Claim C4 -/

/-- The aggregate invariant `updateBatchProgress` re-establishes after
every task state change: `totalProgress` is the rounded terminal ratio,
and once every task is terminal the batch status follows the
failed/completed rule and the completion timestamp is set. -/
def batchInvariant (b : BatchConversionTask) : Prop :=
  b.totalProgress =
    batchProgressValue (terminalCount b.tasks) b.tasks.length ∧
  (terminalCount b.tasks = b.tasks.length →
    ((∃ t ∈ b.tasks, t.status = ConversionStatus.failed) →
        b.status = ConversionStatus.failed) ∧
    ((∀ t ∈ b.tasks, t.status = ConversionStatus.completed) →
        b.status = ConversionStatus.completed) ∧
    b.completedAt.isSome = true)

theorem updateBatchProgress_invariant (now : Nat)
    (b : BatchConversionTask) :
    batchInvariant (updateBatchProgress now b) := by
  unfold batchInvariant
  rw [updateBatchProgress_tasks, updateBatchProgress_totalProgress]
  refine ⟨rfl, ?_⟩
  intro hterm
  simp only [updateBatchProgress, hterm, if_true, eq_self_iff_true]
  refine ⟨?_, ?_, rfl⟩
  · rintro ⟨t, ht, hf⟩
    have hany : b.tasks.any (fun t => t.status.isFailed) = true := by
      rw [List.any_eq_true]
      exact ⟨t, ht, by rw [hf]; rfl⟩
    simp [hany]
  · intro hall
    have hany : b.tasks.any (fun t => t.status.isFailed) = false := by
      rw [List.any_eq_false]
      intro t ht
      rw [hall t ht]
      simp [ConversionStatus.isFailed]
    simp [hany]

/-- Claim C4: for every non-empty batch, every batch state emitted to
`onBatchProgress` during `convertBatchTask` (one after each task state
change, plus the final one) satisfies the aggregate invariant: the
rounded terminal-ratio progress, and — once all tasks are terminal —
failed status if some task failed, completed status if all succeeded,
completion timestamp set. -/
theorem batch_trace_invariant (e : JsFile → Except String String)
    (now : Nat) (b : BatchConversionTask) (_h : b.tasks ≠ []) :
    ∀ x ∈ (convertBatchTask e now b).2, batchInvariant x := by
  intro x hx
  obtain ⟨bb, rfl⟩ := convertBatchTask_trace_mem e now b x hx
  exact updateBatchProgress_invariant now bb

/-- Witness for C4 at a concrete one-task batch: the final emitted
state is on the trace and satisfies the invariant. -/
theorem batch_trace_invariant_witness :
    batchInvariant (convertBatchTask encodeFail 7 exBatch).1 :=
  batch_trace_invariant encodeFail 7 exBatch (by decide)
    (convertBatchTask encodeFail 7 exBatch).1 (by decide)

/-! ### Claim C10 -/

/-- Claim C10: on a batch with zero tasks `convertBatchTask` returns at
once (the trace holds a single final update): batch status COMPLETED,
completion timestamp set, and `totalProgress` left as the NaN produced
by the unguarded `0 / 0`, which is no number in the 0–100 range. -/
theorem convertBatchTask_empty (e : JsFile → Except String String)
    (now : Nat) (b : BatchConversionTask) (h : b.tasks = []) :
    (convertBatchTask e now b).1.status = ConversionStatus.completed ∧
    (convertBatchTask e now b).1.completedAt = some now ∧
    (convertBatchTask e now b).1.totalProgress = JsNum.nan ∧
    (∀ n : Nat, (convertBatchTask e now b).1.totalProgress ≠ JsNum.num n) ∧
    (convertBatchTask e now b).2 = [(convertBatchTask e now b).1] := by
  have hb : convertBatchTask e now b =
      (updateBatchProgress now { b with status := ConversionStatus.processing },
       [updateBatchProgress now { b with status := ConversionStatus.processing }]) := by
    unfold convertBatchTask
    rw [h]
    rfl
  have hu : updateBatchProgress now
      { b with status := ConversionStatus.processing } =
      { b with status := ConversionStatus.completed,
               totalProgress := JsNum.nan,
               completedAt := some now } := by
    unfold updateBatchProgress terminalCount batchProgressValue
    simp [h]
  rw [hb, hu]
  refine ⟨rfl, rfl, rfl, ?_, rfl⟩
  intro n
  simp

/-- Witness for C10 at a concrete zero-task batch. -/
theorem convertBatchTask_empty_witness :
    (convertBatchTask encodeOk 7 (createBatchTask "b0" 0 [])).1.status =
      ConversionStatus.completed ∧
    (convertBatchTask encodeOk 7 (createBatchTask "b0" 0 [])).1.totalProgress =
      JsNum.nan :=
  ⟨(convertBatchTask_empty encodeOk 7 (createBatchTask "b0" 0 []) rfl).1,
   (convertBatchTask_empty encodeOk 7 (createBatchTask "b0" 0 []) rfl).2.2.1⟩

/-! ### Claim C1 -/

/-- Counterexample to claim C1 as stated: running `convertSingleTask`
on a fresh pending task with a failing encoder leaves the task FAILED
with progress 20 (not 100) and no completion timestamp, refuting both
"progress == 100 iff terminal" and "a task reaching failed has its
completion timestamp set". -/
theorem task_invariant_cex :
    (convertSingleTask encodeFail 7 exTask).status =
      ConversionStatus.failed ∧
    (convertSingleTask encodeFail 7 exTask).progress = 20 ∧
    ¬(convertSingleTask encodeFail 7 exTask).progress = 100 ∧
    (convertSingleTask encodeFail 7 exTask).completedAt = none := by
  decide

/-- A task as `createTask` produces it: pending, progress 0, no SVG, no
error, no completion timestamp. -/
def FreshTask (t : ConversionTask) : Prop :=
  t.status = ConversionStatus.pending ∧ t.progress = 0 ∧
    t.svgContent = none ∧ t.error = none ∧ t.completedAt = none

/-- The per-task state invariant the code actually maintains:
progress 100, SVG content and completion timestamp each present exactly
on success, error detail present exactly on failure. -/
def TaskStateInv (t : ConversionTask) : Prop :=
  (t.progress = 100 ↔ t.status = ConversionStatus.completed) ∧
  (t.svgContent.isSome = true ↔ t.status = ConversionStatus.completed) ∧
  (t.error.isSome = true ↔ t.status = ConversionStatus.failed) ∧
  (t.completedAt.isSome = true ↔ t.status = ConversionStatus.completed)

theorem cancelTask_inv (t : ConversionTask) (h : TaskStateInv t) :
    TaskStateInv (cancelTask t) := by
  obtain ⟨hp, hs, he, hc⟩ := h
  unfold cancelTask
  by_cases hst : t.status = ConversionStatus.pending ∨
      t.status = ConversionStatus.processing
  · rw [if_pos hst]
    have hnc : ¬t.status = ConversionStatus.completed := by
      rcases hst with h1 | h1 <;> rw [h1] <;> intro h2 <;> cases h2
    refine ⟨?_, ?_, ?_, ?_⟩ <;> simp [TaskStateInv, hp, hs, hc, hnc]
  · rw [if_neg hst]
    exact ⟨hp, hs, he, hc⟩

/-- Claim C1, amended: after `convertSingleTask` on a fresh task, and
preserved by `cancelBatchTask`, the code maintains: progress == 100 iff
the task is COMPLETED (a failing conversion leaves progress at 20 and a
cancellation leaves it untouched); SVG content present iff COMPLETED;
error detail present iff FAILED; and the completion timestamp is set iff
COMPLETED — a task reaching FAILED has no completion timestamp. -/
theorem task_invariant_amended :
    (∀ (e : JsFile → Except String String) (now : Nat)
       (t : ConversionTask), FreshTask t →
         TaskStateInv (convertSingleTask e now t)) ∧
    (∀ b : BatchConversionTask, (∀ t ∈ b.tasks, TaskStateInv t) →
       ∀ t ∈ (cancelBatchTask b).tasks, TaskStateInv t) := by
  constructor
  · intro e now t hf
    obtain ⟨hst, hp, hs, he, hc⟩ := hf
    unfold convertSingleTask
    cases e t.file with
    | ok svg =>
      refine ⟨?_, ?_, ?_, ?_⟩ <;> simp [TaskStateInv, he, hc]
    | error msg =>
      refine ⟨?_, ?_, ?_, ?_⟩ <;> simp [TaskStateInv, hs, hc]
  · intro b hall t ht
    rw [cancelBatchTask] at ht
    obtain ⟨t0, ht0, rfl⟩ := List.mem_map.mp ht
    exact cancelTask_inv t0 (hall t0 ht0)

/-- Witness for the amended C1: a concrete successful conversion and a
concrete cancelled batch element both satisfy the invariant. -/
theorem task_invariant_amended_witness :
    TaskStateInv (convertSingleTask encodeOk 3 exTask) ∧
    TaskStateInv (cancelTask exTask) := by
  constructor
  · exact task_invariant_amended.1 encodeOk 3 exTask
      (by refine ⟨rfl, rfl, rfl, rfl, rfl⟩)
  · exact task_invariant_amended.2 exBatch
      (by
        intro t ht
        have h1 : t = exTask := by
          have h2 : exBatch.tasks = [exTask] := rfl
          rw [h2, List.mem_singleton] at ht
          exact ht
        rw [h1]
        refine ⟨by decide, by decide, by decide, by decide⟩)
      (cancelTask exTask)
      (by
        have h2 : (cancelBatchTask exBatch).tasks = [cancelTask exTask] := rfl
        rw [h2]
        exact List.mem_singleton.mpr rfl)

/-! ### Claim C2 -/

/-- A supported-type file one byte over the 10 MiB ceiling. -/
def bigPng : JsFile :=
  { name := "big.png", type := "image/png", size := 10 * 1024 * 1024 + 1 }

/-- Counterexample to claim C2 as stated: `createTask` performs no size
check, so it happily returns a task for a supported-type file above the
10 MiB ceiling instead of failing with a typed error. -/
theorem createTask_no_size_cex :
    maxUploadSize < bigPng.size ∧
    createTask "i1" 5 bigPng = .ok
      { id := "i1", file := bigPng, fileName := "big",
        fileSize := 10 * 1024 * 1024 + 1, status := .pending,
        progress := 0, svgContent := none, error := none,
        createdAt := 5, completedAt := none } := by
  constructor
  · decide
  · rfl

theorem validateFiles_foldAux :
    ∀ (files : List JsFile) (acc : List JsFile × List String),
      (files.foldl validateFilesStep acc).1 =
        acc.1 ++ files.filter
          (fun f => validateImageFile f.type &&
            decide (f.size ≤ maxUploadSize)) := by
  intro files
  induction files with
  | nil => intro acc; simp
  | cons f rest ih =>
    intro acc
    simp only [List.foldl_cons]
    rw [ih]
    unfold validateFilesStep
    by_cases h1 : validateImageFile f.type
    · by_cases h2 : f.size > maxUploadSize
      · have h3 : ¬(f.size ≤ maxUploadSize) := by omega
        simp [h1, h2, h3, List.filter_cons]
      · have h3 : f.size ≤ maxUploadSize := by omega
        simp [h1, h2, h3, List.filter_cons]
    · simp [h1, List.filter_cons]

/-- Claim C2, amended: `createTask` succeeds with a fresh pending task
exactly when the file's MIME type is supported and throws the typed
FILE_READ_ERROR exactly when it is not — it never checks the size. The
10 MiB ceiling is enforced upstream, by `FileUpload.validateFiles`,
which keeps exactly the files of supported type and size ≤ 10 MiB. -/
theorem createTask_amended :
    (∀ (newId : String) (now : Nat) (f : JsFile),
        validateImageFile f.type = true →
        createTask newId now f = .ok
          { id := newId, file := f,
            fileName := getFileNameWithoutExtension f.name,
            fileSize := f.size, status := .pending, progress := 0,
            svgContent := none, error := none, createdAt := now,
            completedAt := none }) ∧
    (∀ (newId : String) (now : Nat) (f : JsFile),
        validateImageFile f.type = false →
        createTask newId now f = .error
          { type := .fileReadError,
            message := "不支持的文件格式: " ++ f.type }) ∧
    (∀ files : List JsFile,
        (validateFiles files).1 = files.filter
          (fun f => validateImageFile f.type &&
            decide (f.size ≤ maxUploadSize))) := by
  refine ⟨?_, ?_, ?_⟩
  · intro newId now f h
    simp [createTask, h]
  · intro newId now f h
    simp [createTask, h]
  · intro files
    have := validateFiles_foldAux files ([], [])
    simpa [validateFiles] using this

/-- Witness for the amended C2: a supported small file is accepted, an
unsupported one rejected, and `validateFiles` keeps only the small
supported one out of a supported-but-oversized pair. -/
theorem createTask_amended_witness :
    createTask "i1" 5 exFile = .ok
      { id := "i1", file := exFile,
        fileName := getFileNameWithoutExtension exFile.name,
        fileSize := exFile.size, status := .pending, progress := 0,
        svgContent := none, error := none, createdAt := 5,
        completedAt := none } ∧
    createTask "i2" 5 { name := "a.txt", type := "text/plain", size := 3 } =
      .error { type := .fileReadError,
               message := "不支持的文件格式: " ++ "text/plain" } ∧
    (validateFiles [exFile, bigPng]).1 = [exFile] := by
  refine ⟨?_, ?_, ?_⟩
  · exact createTask_amended.1 "i1" 5 exFile (by decide)
  · exact createTask_amended.2.1 "i2" 5 _ (by decide)
  · rw [createTask_amended.2.2 [exFile, bigPng]]
    decide

/-! ### Claim C5 -/

/-- A completed task with its result, as left by a successful batch. -/
def doneTask : ConversionTask :=
  { id := "t2", file := exFile, fileName := "a", fileSize := 3,
    status := .completed, progress := 100, svgContent := some "<svg/>",
    error := none, createdAt := 0, completedAt := some 1 }

/-- A fully completed one-task batch. -/
def doneBatch : BatchConversionTask :=
  { batchId := "b2", tasks := [doneTask], totalProgress := .num 100,
    status := .completed, createdAt := 0, completedAt := some 1 }

/-- Counterexample to claim C5 as stated: on a fully completed batch
`cancelBatchTask` leaves every task alone but still flips the batch
status from COMPLETED to FAILED — it is not a status no-op. -/
theorem cancel_completed_cex :
    doneBatch.status = ConversionStatus.completed ∧
    doneBatch.tasks = [doneTask] ∧
    doneTask.status.isTerminal = true ∧
    (cancelBatchTask doneBatch).tasks = doneBatch.tasks ∧
    (cancelBatchTask doneBatch).status = ConversionStatus.failed ∧
    ¬(cancelBatchTask doneBatch).status = ConversionStatus.completed := by
  decide

theorem cancelTask_terminal (t : ConversionTask)
    (h : t.status.isTerminal = true) : cancelTask t = t := by
  unfold cancelTask
  cases hs : t.status <;> simp [hs, ConversionStatus.isTerminal] at h ⊢

/-- Claim C5, amended: on a batch whose tasks are all terminal,
`cancelBatchTask` changes no task's fields and leaves `totalProgress`
and the completion timestamp untouched (it never writes `completedAt`),
but it unconditionally sets the batch status to FAILED — even on a batch
that had fully completed. -/
theorem cancel_terminal_amended (b : BatchConversionTask)
    (h : ∀ t ∈ b.tasks, t.status.isTerminal = true) :
    (cancelBatchTask b).tasks = b.tasks ∧
    (cancelBatchTask b).status = ConversionStatus.failed ∧
    (cancelBatchTask b).completedAt = b.completedAt ∧
    (cancelBatchTask b).totalProgress = b.totalProgress := by
  refine ⟨?_, rfl, rfl, rfl⟩
  show b.tasks.map cancelTask = b.tasks
  calc b.tasks.map cancelTask
      = b.tasks.map id :=
        List.map_congr_left (fun t ht => cancelTask_terminal t (h t ht))
    _ = b.tasks := List.map_id _

/-- Witness for the amended C5 on the concrete completed batch. -/
theorem cancel_terminal_amended_witness :
    (cancelBatchTask doneBatch).tasks = doneBatch.tasks ∧
    (cancelBatchTask doneBatch).status = ConversionStatus.failed ∧
    (cancelBatchTask doneBatch).completedAt = doneBatch.completedAt ∧
    (cancelBatchTask doneBatch).totalProgress = doneBatch.totalProgress :=
  cancel_terminal_amended doneBatch
    (by
      intro t ht
      have h2 : doneBatch.tasks = [doneTask] := rfl
      rw [h2, List.mem_singleton] at ht
      rw [ht]
      decide)

/-! ### Claim C6 -/

theorem cancelTask_idem (t : ConversionTask) :
    cancelTask (cancelTask t) = cancelTask t := by
  unfold cancelTask
  cases hs : t.status <;> simp [hs]

/-- Claim C6: `cancelBatchTask` is idempotent — a second call leaves the
batch and every task exactly as the first call did. -/
theorem cancelBatchTask_idempotent (b : BatchConversionTask) :
    cancelBatchTask (cancelBatchTask b) = cancelBatchTask b := by
  unfold cancelBatchTask
  simp only [List.map_map]
  congr 1
  exact List.map_congr_left (fun t _ => cancelTask_idem t)

/-! ### Claim C7 -/

/-- The storage item `saveBatchToHistory` puts for a given fresh id,
save time and batch. -/
def mkStorageItem (newId : String) (now : Nat)
    (batch : BatchConversionTask) : StorageItem :=
  { id := newId
    data := { id := newId, batch := batch, savedAt := now }
    timestamp := now }

/-- Run a sequence of `saveBatchToHistory` calls (id, time, batch)
against an initially empty store. -/
def saveAll (saves : List (String × Nat × BatchConversionTask)) :
    List StorageItem :=
  saves.foldl (fun st s => (saveBatchToHistory st s.1 s.2.1 s.2.2).1) []

theorem putItem_fresh (store : List StorageItem) (item : StorageItem)
    (h : ∀ s ∈ store, s.id ≠ item.id) :
    putItem store item = store ++ [item] := by
  unfold putItem
  congr 1
  apply List.filter_eq_self.mpr
  intro s hs
  simp [h s hs]

theorem saveAll_aux :
    ∀ (saves : List (String × Nat × BatchConversionTask))
      (store : List StorageItem),
      (∀ s ∈ store, ∀ q ∈ saves, s.id ≠ q.1) →
      (saves.map (fun q => q.1)).Nodup →
      saves.foldl (fun st s => (saveBatchToHistory st s.1 s.2.1 s.2.2).1)
          store =
        store ++ saves.map (fun q => mkStorageItem q.1 q.2.1 q.2.2) := by
  intro saves
  induction saves with
  | nil => intro store _ _; simp
  | cons q rest ih =>
    intro store hdisj hnd
    simp only [List.map_cons, List.nodup_cons] at hnd
    simp only [List.foldl_cons]
    have hput : (saveBatchToHistory store q.1 q.2.1 q.2.2).1 =
        store ++ [mkStorageItem q.1 q.2.1 q.2.2] := by
      apply putItem_fresh
      intro s hs
      exact hdisj s hs q (List.mem_cons_self q rest)
    rw [hput]
    rw [ih (store ++ [mkStorageItem q.1 q.2.1 q.2.2]) ?_ hnd.2]
    · simp
    · intro s hs r hr
      rcases List.mem_append.mp hs with h1 | h1
      · exact hdisj s h1 r (List.mem_cons_of_mem _ hr)
      · rw [List.mem_singleton.mp h1]
        show q.1 ≠ r.1
        intro heq
        exact hnd.1 (heq ▸ List.mem_map_of_mem (fun x => x.1) hr)

/-- Claim C7, amended: N saves with pairwise-distinct record ids into an
empty store yield exactly N records from `getAllHistory`, ordered by
save time descending — but a tie in save time is broken by record id
descending (the IndexedDB index visits equal-key entries in primary-key
order, reversed by the `prev` cursor), not by insertion order. -/
theorem getAllHistory_ordered
    (saves : List (String × Nat × BatchConversionTask))
    (hnd : (saves.map (fun q => q.1)).Nodup) :
    (getAllHistory (saveAll saves)).length = saves.length ∧
    (getAllHistory (saveAll saves)).Pairwise
      (fun x y => y.savedAt < x.savedAt ∨
        (y.savedAt = x.savedAt ∧ idLe y.id x.id = true)) := by
  have hstore : saveAll saves =
      saves.map (fun q => mkStorageItem q.1 q.2.1 q.2.2) := by
    have := saveAll_aux saves [] (by intro s hs; cases hs) hnd
    simpa [saveAll] using this
  constructor
  · unfold getAllHistory
    rw [List.length_map, List.length_insertionSort, hstore, List.length_map]
  · unfold getAllHistory
    rw [List.pairwise_map]
    have hsorted : ((saveAll saves).insertionSort itemRel).Pairwise itemRel :=
      List.sorted_insertionSort itemRel _
    have hshape : ∀ s ∈ saveAll saves,
        s.timestamp = s.data.savedAt ∧ s.id = s.data.id := by
      rw [hstore]
      intro s hs
      obtain ⟨q, _, rfl⟩ := List.mem_map.mp hs
      exact ⟨rfl, rfl⟩
    refine hsorted.imp_of_mem ?_
    intro a b ha hb hr
    have ha2 := hshape a ((List.mem_insertionSort itemRel).mp ha)
    have hb2 := hshape b ((List.mem_insertionSort itemRel).mp hb)
    unfold itemRel at hr
    rcases hr with h | ⟨h, h2⟩
    · exact Or.inl (by rw [← ha2.1, ← hb2.1]; exact h)
    · exact Or.inr ⟨by rw [← ha2.1, ← hb2.1]; exact h,
        by rw [← ha2.2, ← hb2.2]; exact h2⟩

/-- Witness for the amended C7 at two concrete saves. -/
theorem getAllHistory_ordered_witness :
    (getAllHistory (saveAll [("h2", 9, exBatch), ("h1", 5, exBatch)])).length = 2 ∧
    (getAllHistory (saveAll [("h2", 9, exBatch), ("h1", 5, exBatch)])).Pairwise
      (fun x y => y.savedAt < x.savedAt ∨
        (y.savedAt = x.savedAt ∧ idLe y.id x.id = true)) :=
  getAllHistory_ordered [("h2", 9, exBatch), ("h1", 5, exBatch)] (by decide)

/-- Two saves in the same clock millisecond, the record saved second
carrying the smaller id. -/
def tieSaves : List (String × Nat × BatchConversionTask) :=
  [("b", 5, exBatch), ("a", 5, exBatch)]

/-- Counterexample to claim C7's tie-break as stated: with equal saved-at
timestamps `getAllHistory` returns the record with the larger id first,
so the earlier-inserted record "b" precedes the later-inserted "a" —
not later-insertion-first. -/
theorem getAllHistory_tie_cex :
    getAllHistory (saveAll tieSaves) =
      [{ id := "b", batch := exBatch, savedAt := 5 },
       { id := "a", batch := exBatch, savedAt := 5 }] ∧
    getAllHistory (saveAll tieSaves) ≠
      [{ id := "a", batch := exBatch, savedAt := 5 },
       { id := "b", batch := exBatch, savedAt := 5 }] := by
  decide

/-! ### Claim C8 -/

theorem getHistoryById_putItem (store : List StorageItem)
    (item : StorageItem) :
    getHistoryById (putItem store item) item.id = some item.data := by
  unfold getHistoryById putItem
  induction store with
  | nil => simp [List.find?]
  | cons a rest ih =>
    by_cases h : a.id == item.id
    · simpa [List.filter_cons, h] using ih
    · simpa [List.filter_cons, h, List.find?] using ih

/-- Claim C8: after `saveBatchToHistory` returns a record id, looking
the record up returns a snapshot deep-equal to the batch at the moment
of saving, and any subsequent mutation of the live batch object leaves
the stored snapshot unchanged (the IndexedDB put stored a structured
clone, not an alias). -/
theorem history_snapshot_stable (s : AppState) (newId : String)
    (now : Nat) (f : BatchConversionTask → BatchConversionTask) :
    getHistoryById ((mutateLive f (saveLiveBatch s newId now).1).store)
        newId =
      some { id := newId, batch := s.live, savedAt := now } :=
  getHistoryById_putItem s.store (mkStorageItem newId now s.live)

/-! ### Claim C9 -/

/-- A completed task whose result document is present but empty. -/
def emptySvgTask : ConversionTask :=
  { id := "t3", file := exFile, fileName := "a", fileSize := 3,
    status := .completed, progress := 100, svgContent := some "",
    error := none, createdAt := 0, completedAt := some 1 }

/-- Counterexample to claim C9 as stated: the guard `!task.svgContent`
is a JS falsiness test, so a COMPLETED task whose SVG content is present
but the empty string still throws the typed download error — delivery
does not proceed for every completed task with a result document. -/
theorem downloadTaskSvg_empty_cex :
    emptySvgTask.status = ConversionStatus.completed ∧
    emptySvgTask.svgContent = some "" ∧
    downloadTaskSvg emptySvgTask =
      .error { type := .downloadError,
               message := "任务未完成或SVG内容不存在" } := by
  refine ⟨rfl, rfl, rfl⟩

theorem svgContentFalsy_iff (o : Option String) :
    svgContentFalsy o = true ↔ (o = none ∨ o = some "") := by
  cases o with
  | none => simp [svgContentFalsy]
  | some c => simp [svgContentFalsy]

/-- Claim C9, amended: `downloadTaskSvg` throws the typed download error
exactly when the task is not COMPLETED, has no SVG content, or has the
empty string as SVG content (the JS `!task.svgContent` falsiness test);
for a COMPLETED task holding non-empty SVG content it hands the content
and derived `.svg` file name to the file delivery without error. -/
theorem downloadTaskSvg_spec (t : ConversionTask) :
    (downloadTaskSvg t =
        .error { type := .downloadError,
                 message := "任务未完成或SVG内容不存在" } ↔
      (t.status ≠ ConversionStatus.completed ∨ t.svgContent = none ∨
        t.svgContent = some "")) ∧
    (∀ c : String, t.status = ConversionStatus.completed →
      t.svgContent = some c → c ≠ "" →
      downloadTaskSvg t = .ok
        { fileName := generateSvgFileName t.file.name, content := c,
          mimeType := "image/svg+xml" }) := by
  unfold downloadTaskSvg
  by_cases h : t.status ≠ ConversionStatus.completed ∨
      svgContentFalsy t.svgContent
  · rw [if_pos h]
    constructor
    · constructor
      · intro _
        rcases h with h | h
        · exact Or.inl h
        · rcases (svgContentFalsy_iff t.svgContent).mp h with h2 | h2
          · exact Or.inr (Or.inl h2)
          · exact Or.inr (Or.inr h2)
      · intro _; rfl
    · intro c hst hsvg hne
      rcases h with h | h
      · exact absurd hst h
      · rcases (svgContentFalsy_iff t.svgContent).mp h with h2 | h2
        · rw [hsvg] at h2; cases h2
        · rw [hsvg] at h2
          exact absurd (Option.some.inj h2) hne
  · rw [if_neg h]
    rw [not_or] at h
    obtain ⟨h1, h2⟩ := h
    have hst : t.status = ConversionStatus.completed := not_not.mp h1
    have hnf : svgContentFalsy t.svgContent = false := by
      rwa [Bool.not_eq_true] at h2
    constructor
    · constructor
      · intro heq; cases heq
      · rintro (h3 | h3 | h3)
        · exact absurd hst h3
        · rw [h3] at hnf; simp [svgContentFalsy] at hnf
        · rw [h3] at hnf; simp [svgContentFalsy] at hnf
    · intro c _ hsvg _
      rw [hsvg]
      rfl

/-- Witness for the amended C9: a completed task with non-empty content
is delivered, a fresh pending task raises the typed error. -/
theorem downloadTaskSvg_spec_witness :
    downloadTaskSvg doneTask = .ok
      { fileName := generateSvgFileName doneTask.file.name,
        content := "<svg/>", mimeType := "image/svg+xml" } ∧
    downloadTaskSvg exTask =
      .error { type := .downloadError,
               message := "任务未完成或SVG内容不存在" } := by
  constructor
  · exact (downloadTaskSvg_spec doneTask).2 "<svg/>" rfl rfl (by decide)
  · exact (downloadTaskSvg_spec exTask).1.mpr (Or.inr (Or.inl rfl))

end ImageToSvg
